import Mathlib

/-!
Verification of the Newton's-cradle physics core (`NewtonCradle.py`).

The embedding is generic over a linear ordered field `α` (exact arithmetic
in place of floating point) and over a `Trig` record supplying the `sin` and
`cos` functions that the source reaches through `math.sin` / `math.cos`.
All theorems hold for every such field and every choice of trig functions;
witnesses instantiate `α := ℚ` with a concrete polynomial trig record.

Python-to-Lean correspondence:
- class `SimulationParams` (default values set in `__init__`) ↦ `SimulationParams`
- class `Ball` with fields mass / angle / angular_velocity /
  angular_acceleration / pivot ↦ structure `Ball`
- `Ball.update(dt)` ↦ `Ball.update` (returns the mutated ball)
- `Ball.get_position()` ↦ `Ball.get_position`
- `initialize_simulation()` (reads the global `params`) ↦
  `initialize_simulation` taking the params record explicitly
- `resolve_collisions(balls)` ↦ `resolve_collisions`; its inner sweep loop
  `for i in range(n - 1, 0, -1)` processes adjacent pairs from the rightmost
  pair down to the leftmost pair, each pair reading the current (possibly
  already swapped this sweep) velocities; `resolveSweep` performs exactly
  that order by recursing on the tail first (the tail's pairs are processed
  first, rightmost-first, then the head pair last) and returns the updated
  chain together with the `collision_found` flag. `resolveLoop` is the
  `for _ in range(max_iter)` loop with its early `break` when no collision
  was found during a sweep.
-/

namespace NewtonCradle

/-- The trig functions the source uses through `math.sin` and `math.cos`. -/
structure Trig (α : Type) where
  sin : α → α
  cos : α → α

/-- `SimulationParams` from the source: the parameter bundle read by the
physics functions (`num_balls`, `ball_radius`, `ball_mass`, `gravity`,
`rod_length`, `damping`, `initial_angle`, `time_step`). -/
structure SimulationParams (α : Type) where
  num_balls : ℕ
  ball_radius : α
  ball_mass : α
  gravity : α
  rod_length : α
  damping : α
  initial_angle : α
  time_step : α

/-- `Ball` from the source: one pendulum's state. -/
structure Ball (α : Type) where
  mass : α
  angle : α
  angular_velocity : α
  angular_acceleration : α
  pivot : α × α

variable {α : Type} [LinearOrderedField α]

/-- `Ball.update(self, dt)`:
`self.angular_acceleration = -params.gravity * math.sin(self.angle) / params.rod_length`;
`self.angular_velocity += self.angular_acceleration * dt`;
`self.angular_velocity *= params.damping`;
`self.angle += self.angular_velocity * dt`. -/
def Ball.update (T : Trig α) (p : SimulationParams α) (b : Ball α) (dt : α) :
    Ball α :=
  let accel : α := -p.gravity * T.sin b.angle / p.rod_length
  let vel : α := (b.angular_velocity + accel * dt) * p.damping
  { b with
    angular_acceleration := accel
    angular_velocity := vel
    angle := b.angle + vel * dt }

/-- `Ball.get_position(self)`:
`x = self.pivot[0] + params.rod_length * math.sin(self.angle)`;
`y = self.pivot[1] + params.rod_length * math.cos(self.angle)`. -/
def Ball.get_position (T : Trig α) (p : SimulationParams α) (b : Ball α) :
    α × α :=
  (b.pivot.1 + p.rod_length * T.sin b.angle,
   b.pivot.2 + p.rod_length * T.cos b.angle)

/-- Screen width constant from the source (`WIDTH, HEIGHT = 800, 600`). -/
def WIDTH : ℕ := 800

/-- `initialize_simulation()`: `origin_x = WIDTH // 2`, `origin_y = 100`,
`spacing = 2 * params.ball_radius`,
`start_x = origin_x - ((params.num_balls - 1) / 2) * spacing` (Python 3 true
division, hence the cast to `α` before subtracting 1), then for each
`i in range(params.num_balls)` a ball with
`initial_angle = params.initial_angle if i == params.num_balls - 1 else 0`
and `pivot = (start_x + i * spacing, origin_y)`; `Ball.__init__` sets
`angular_velocity = 0` and `angular_acceleration = 0`. -/
def initialize_simulation (p : SimulationParams α) : List (Ball α) :=
  let origin_x : α := ((WIDTH / 2 : ℕ) : α)
  let origin_y : α := 100
  let spacing : α := 2 * p.ball_radius
  let start_x : α := origin_x - (((p.num_balls : α) - 1) / 2) * spacing
  (List.range p.num_balls).map fun i =>
    { mass := p.ball_mass
      angle := if i = p.num_balls - 1 then p.initial_angle else 0
      angular_velocity := 0
      angular_acceleration := 0
      pivot := (start_x + (i : α) * spacing, origin_y) }

/-- `tolerance = 1.0` in `resolve_collisions`. -/
def tolerance : α := 1

/-- `max_iter = 10` in `resolve_collisions`. -/
def max_iter : ℕ := 10

/-- One sweep of `resolve_collisions`: the body of
`for i in range(n - 1, 0, -1)` over adjacent pairs `(i - 1, i)`, rightmost
pair first, leftmost pair `(0, 1)` last, together with the
`collision_found` flag. Recursing on the tail first processes the tail's
pairs (which are exactly the pairs with left index at least 1, in the same
rightmost-first order) and then the head pair `(0, 1)` against the already
updated ball 1, matching the Python iteration order. For each pair:
`dx = pos_right[0] - pos_left[0]`; if `dx < 2 * params.ball_radius +
tolerance` and `v_right - v_left < 0` (with `v = params.rod_length *
angular_velocity`) the two angular velocities are swapped and the flag is
set. -/
def resolveSweep (T : Trig α) (p : SimulationParams α) :
    List (Ball α) → List (Ball α) × Bool
  | [] => ([], false)
  | [b] => ([b], false)
  | a :: b :: rest =>
    match resolveSweep T p (b :: rest) with
    | ([], found) => ([a], found)
    | (c :: rest2, found) =>
      let dx : α := (c.get_position T p).1 - (a.get_position T p).1
      if dx < 2 * p.ball_radius + tolerance then
        let v_right : α := p.rod_length * c.angular_velocity
        let v_left : α := p.rod_length * a.angular_velocity
        if v_right - v_left < 0 then
          ({ a with angular_velocity := c.angular_velocity } ::
           { c with angular_velocity := a.angular_velocity } :: rest2, true)
        else (a :: c :: rest2, found)
      else (a :: c :: rest2, found)

/-- The `for _ in range(max_iter)` loop of `resolve_collisions`: run a sweep;
if it found a collision, continue with the remaining iteration budget,
otherwise `break`. -/
def resolveLoop (T : Trig α) (p : SimulationParams α) :
    ℕ → List (Ball α) → List (Ball α)
  | 0, balls => balls
  | k + 1, balls =>
    match resolveSweep T p balls with
    | (balls2, true) => resolveLoop T p k balls2
    | (balls2, false) => balls2

/-- `resolve_collisions(balls)`. -/
def resolve_collisions (T : Trig α) (p : SimulationParams α)
    (balls : List (Ball α)) : List (Ball α) :=
  resolveLoop T p max_iter balls

/-- Instrumented variant of `resolveLoop` that also counts how many sweeps
the call performs before returning (used to state the sweep bounds of the
iteration cap and the early exit). -/
def resolveCount (T : Trig α) (p : SimulationParams α) :
    ℕ → List (Ball α) → List (Ball α) × ℕ
  | 0, balls => (balls, 0)
  | k + 1, balls =>
    match resolveSweep T p balls with
    | (balls2, true) =>
      let r := resolveCount T p k balls2
      (r.1, r.2 + 1)
    | (balls2, false) => (balls2, 1)

/-- One operation of the per-frame driver in `main`: either an integration
pass (`ball.update(params.time_step)` for every ball) or a
`resolve_collisions(balls)` call. -/
inductive CradleOp (α : Type) where
  | integrate (dt : α) : CradleOp α
  | resolve : CradleOp α

/-- Run a sequence of driver operations over a chain, as the main loop does
(`for ball in balls: ball.update(dt)` then `resolve_collisions(balls)`). -/
def runOps (T : Trig α) (p : SimulationParams α) :
    List (CradleOp α) → List (Ball α) → List (Ball α)
  | [], balls => balls
  | CradleOp.integrate dt :: ops, balls =>
    runOps T p ops (balls.map fun b => b.update T p dt)
  | CradleOp.resolve :: ops, balls =>
    runOps T p ops (resolve_collisions T p balls)

/-- Two balls agreeing in the dynamical state the physics reads: angle,
angular velocity and pivot (mass is free). -/
def AgreeDyn (b b2 : Ball α) : Prop :=
  b.angle = b2.angle ∧ b.angular_velocity = b2.angular_velocity ∧
    b.pivot = b2.pivot

/-- A concrete rational trig record for the witnesses. Every theorem below is
generic in the trig record, so any instantiation is admissible; this one is
the small-angle form (`sin x = x`, `cos x = 1`), under which all witness
chains are evaluable by `norm_num`. -/
def ratTrig : Trig ℚ := ⟨fun x => x, fun _ => 1⟩

/-- Witness parameters: the source defaults (5 balls, radius 20, mass 1,
gravity 50, rod length 200, damping 1, time step 1/60), with the initial
angle, π/4 in the source, replaced by a rational. -/
def paramsW : SimulationParams ℚ := ⟨5, 20, 1, 50, 200, 1, 1, 1 / 60⟩

/-- Witness parameters with a damping factor strictly inside (0, 1). -/
def paramsDampW : SimulationParams ℚ := ⟨5, 20, 1, 50, 200, 1 / 2, 1, 1 / 60⟩

/-- Witness ball: at rest at the bottom of its swing, pivot x = 380. -/
def ballLeftW : Ball ℚ := ⟨1, 0, 0, 0, (380, 100)⟩

/-- Witness ball: at the bottom of its swing, closing on `ballLeftW`
(angular velocity −1/10), pivot x = 420 (gap exactly 2 × radius = 40). -/
def ballRightW : Ball ℚ := ⟨1, 0, -1 / 10, 0, (420, 100)⟩

/-- Witness ball: far to the right (pivot x = 700, gap 320 > 41). -/
def ballFarW : Ball ℚ := ⟨1, 0, -1 / 10, 0, (700, 100)⟩

/-- Witness ball: spinning at angular velocity 1 at angle 0. -/
def ballSpinW : Ball ℚ := ⟨1, 0, 1, 0, (400, 100)⟩

/-- Witness ball: like `ballLeftW` but with mass 3 (for mass independence). -/
def ballLeftHeavyW : Ball ℚ := ⟨3, 0, 0, 0, (380, 100)⟩

/-- Witness ball: like `ballRightW` but with mass 7. -/
def ballRightHeavyW : Ball ℚ := ⟨7, 0, -1 / 10, 0, (420, 100)⟩

/-! ### Helper lemmas about one collision sweep -/

/-- A sweep never changes the number of balls in the chain. -/
theorem resolveSweep_length (T : Trig α) (p : SimulationParams α) :
    ∀ l : List (Ball α), ((resolveSweep T p l).1).length = l.length := by
  intro l
  induction l with
  | nil => simp [resolveSweep]
  | cons a l ih =>
    cases l with
    | nil => simp [resolveSweep]
    | cons b rest =>
      rcases hs : resolveSweep T p (b :: rest) with ⟨cs, f⟩
      rw [hs] at ih
      cases cs with
      | nil => simp at ih
      | cons c rest2 =>
        simp only [resolveSweep, hs]
        split_ifs <;> simpa using ih

/-- A sweep that sets no collision flag leaves the chain unchanged. -/
theorem resolveSweep_of_flag_false (T : Trig α) (p : SimulationParams α) :
    ∀ l : List (Ball α), (resolveSweep T p l).2 = false →
      (resolveSweep T p l).1 = l := by
  intro l
  induction l with
  | nil => intro _; rfl
  | cons a l ih =>
    cases l with
    | nil => intro _; rfl
    | cons b rest =>
      intro hflag
      have hlen := resolveSweep_length T p (b :: rest)
      rcases hs : resolveSweep T p (b :: rest) with ⟨cs, f⟩
      rw [hs] at ih hlen
      cases cs with
      | nil => simp at hlen
      | cons c rest2 =>
        simp only [resolveSweep, hs] at hflag ⊢
        split_ifs at hflag ⊢ with h1 h2
        all_goals
          have h3 : c :: rest2 = b :: rest := ih hflag
          show a :: c :: rest2 = a :: b :: rest
          rw [h3]

/-- A sweep never changes any ball's angle, pivot, mass or angular
acceleration: it acts on the angular velocities only. -/
theorem resolveSweep_map_frame (T : Trig α) (p : SimulationParams α) :
    ∀ l : List (Ball α),
      ((resolveSweep T p l).1).map
          (fun b => (b.angle, b.pivot, b.mass, b.angular_acceleration)) =
        l.map (fun b => (b.angle, b.pivot, b.mass, b.angular_acceleration)) := by
  intro l
  induction l with
  | nil => rfl
  | cons a l ih =>
    cases l with
    | nil => rfl
    | cons b rest =>
      have hlen := resolveSweep_length T p (b :: rest)
      rcases hs : resolveSweep T p (b :: rest) with ⟨cs, f⟩
      rw [hs] at ih hlen
      cases cs with
      | nil => simp at hlen
      | cons c rest2 =>
        simp only [resolveSweep, hs]
        split_ifs <;> simpa using ih

/-- A sweep permutes the angular velocities of the chain. -/
theorem resolveSweep_perm (T : Trig α) (p : SimulationParams α) :
    ∀ l : List (Ball α),
      (((resolveSweep T p l).1).map (fun b => b.angular_velocity)).Perm
        (l.map (fun b => b.angular_velocity)) := by
  intro l
  induction l with
  | nil => simp [resolveSweep]
  | cons a l ih =>
    cases l with
    | nil => simp [resolveSweep]
    | cons b rest =>
      have hlen := resolveSweep_length T p (b :: rest)
      rcases hs : resolveSweep T p (b :: rest) with ⟨cs, f⟩
      rw [hs] at ih hlen
      cases cs with
      | nil => simp at hlen
      | cons c rest2 =>
        have ih2 : (List.map (fun b => b.angular_velocity) (c :: rest2)).Perm
            (List.map (fun b => b.angular_velocity) (b :: rest)) := by
          simpa using ih
        simp only [resolveSweep, hs]
        split_ifs
        · simp only [List.map_cons] at ih2 ⊢
          exact List.Perm.trans (List.Perm.swap _ _ _) (List.Perm.cons _ ih2)
        · simp only [List.map_cons] at ih2 ⊢
          exact List.Perm.cons _ ih2
        · simp only [List.map_cons] at ih2 ⊢
          exact List.Perm.cons _ ih2

/-! ### Helper lemmas about the bounded sweep loop -/

/-- The sweep loop never changes any ball's angle, pivot, mass or angular
acceleration. -/
theorem resolveLoop_map_frame (T : Trig α) (p : SimulationParams α) :
    ∀ (k : ℕ) (l : List (Ball α)),
      (resolveLoop T p k l).map
          (fun b => (b.angle, b.pivot, b.mass, b.angular_acceleration)) =
        l.map (fun b => (b.angle, b.pivot, b.mass, b.angular_acceleration)) := by
  intro k
  induction k with
  | zero => intro l; rfl
  | succ k ih =>
    intro l
    have hmap := resolveSweep_map_frame T p l
    rcases hs : resolveSweep T p l with ⟨cs, f⟩
    rw [hs] at hmap
    cases f
    · simp only [resolveLoop, hs]
      exact hmap
    · simp only [resolveLoop, hs]
      exact (ih cs).trans hmap

/-- The sweep loop permutes the chain's angular velocities. -/
theorem resolveLoop_perm (T : Trig α) (p : SimulationParams α) :
    ∀ (k : ℕ) (l : List (Ball α)),
      ((resolveLoop T p k l).map (fun b => b.angular_velocity)).Perm
        (l.map (fun b => b.angular_velocity)) := by
  intro k
  induction k with
  | zero => intro l; exact List.Perm.refl _
  | succ k ih =>
    intro l
    have hperm := resolveSweep_perm T p l
    rcases hs : resolveSweep T p l with ⟨cs, f⟩
    rw [hs] at hperm
    cases f
    · simp only [resolveLoop, hs]
      exact hperm
    · simp only [resolveLoop, hs]
      exact (ih cs).trans hperm

/-- The instrumented loop computes the same chain as `resolveLoop`. -/
theorem resolveCount_fst (T : Trig α) (p : SimulationParams α) :
    ∀ (k : ℕ) (l : List (Ball α)),
      (resolveCount T p k l).1 = resolveLoop T p k l := by
  intro k
  induction k with
  | zero => intro l; rfl
  | succ k ih =>
    intro l
    rcases hs : resolveSweep T p l with ⟨cs, f⟩
    cases f
    · simp only [resolveCount, resolveLoop, hs]
    · simp only [resolveCount, resolveLoop, hs]
      exact ih cs

/-- The loop performs at most as many sweeps as its iteration budget. -/
theorem resolveCount_le (T : Trig α) (p : SimulationParams α) :
    ∀ (k : ℕ) (l : List (Ball α)), (resolveCount T p k l).2 ≤ k := by
  intro k
  induction k with
  | zero => intro l; exact le_refl 0
  | succ k ih =>
    intro l
    rcases hs : resolveSweep T p l with ⟨cs, f⟩
    cases f
    · simp only [resolveCount, hs]
      omega
    · simp only [resolveCount, hs]
      have := ih cs
      omega

/-- Closed form of one sweep over a two-ball chain, exactly the source's
contact test and swap rule for the single adjacent pair. -/
theorem resolveSweep_pair (T : Trig α) (p : SimulationParams α)
    (bl br : Ball α) :
    resolveSweep T p [bl, br] =
      if (br.get_position T p).1 - (bl.get_position T p).1 <
          2 * p.ball_radius + tolerance then
        if p.rod_length * br.angular_velocity -
            p.rod_length * bl.angular_velocity < 0 then
          ([{ bl with angular_velocity := br.angular_velocity },
            { br with angular_velocity := bl.angular_velocity }], true)
        else ([bl, br], false)
      else ([bl, br], false) := by
  simp only [resolveSweep]

/-! ### Claim theorems -/

/-- C1: for a two-ball chain of equal masses whose Cartesian horizontal gap
is at most `2 × radius` and whose approximate contact velocities close
(`v_right − v_left < 0` with `v = rod_length × angular_velocity`), one
`resolve_collisions` call exchanges exactly the two angular velocities and
changes nothing else: the result is the input chain with the two angular
velocities swapped, so no further change occurs in the same call. -/
theorem resolve_collisions_swaps_closing_pair (T : Trig α)
    (p : SimulationParams α) (bl br : Ball α) (hm : bl.mass = br.mass)
    (hdx : (br.get_position T p).1 - (bl.get_position T p).1 ≤
      2 * p.ball_radius)
    (hv : p.rod_length * br.angular_velocity -
      p.rod_length * bl.angular_velocity < 0) :
    resolve_collisions T p [bl, br] =
      [{ bl with angular_velocity := br.angular_velocity },
       { br with angular_velocity := bl.angular_velocity }] := by
  have htol : (tolerance : α) = 1 := rfl
  have hdx2 : (br.get_position T p).1 - (bl.get_position T p).1 <
      2 * p.ball_radius + tolerance := by
    rw [htol]; linarith
  have hsw1 : resolveSweep T p [bl, br] =
      ([{ bl with angular_velocity := br.angular_velocity },
        { br with angular_velocity := bl.angular_velocity }], true) := by
    rw [resolveSweep_pair, if_pos hdx2, if_pos hv]
  have hsw2 : resolveSweep T p
      [{ bl with angular_velocity := br.angular_velocity },
       { br with angular_velocity := bl.angular_velocity }] =
      ([{ bl with angular_velocity := br.angular_velocity },
        { br with angular_velocity := bl.angular_velocity }], false) := by
    rw [resolveSweep_pair]
    have hposr : (({ br with angular_velocity := bl.angular_velocity } :
        Ball α).get_position T p).1 = (br.get_position T p).1 := rfl
    have hposl : (({ bl with angular_velocity := br.angular_velocity } :
        Ball α).get_position T p).1 = (bl.get_position T p).1 := rfl
    rw [hposr, hposl, if_pos hdx2]
    have : ¬p.rod_length *
        ({ br with angular_velocity := bl.angular_velocity } :
          Ball α).angular_velocity -
        p.rod_length *
        ({ bl with angular_velocity := br.angular_velocity } :
          Ball α).angular_velocity < 0 := by
      show ¬p.rod_length * bl.angular_velocity -
        p.rod_length * br.angular_velocity < 0
      linarith
    rw [if_neg this]
  show resolveLoop T p max_iter [bl, br] = _
  rw [show max_iter = (8 + 1) + 1 from rfl]
  simp only [resolveLoop, hsw1, hsw2]

/-- Witness for C1: the source-default parameters, a resting left ball and a
closing right ball exactly `2 × radius = 40` apart; `resolve_collisions`
swaps the angular velocities 0 and −1/10. -/
theorem resolve_collisions_swaps_closing_pair_witness :
    resolve_collisions ratTrig paramsW [ballLeftW, ballRightW] =
      [{ ballLeftW with angular_velocity := ballRightW.angular_velocity },
       { ballRightW with angular_velocity := ballLeftW.angular_velocity }] :=
  resolve_collisions_swaps_closing_pair ratTrig paramsW ballLeftW ballRightW
    rfl
    (by norm_num [Ball.get_position, ratTrig, paramsW, ballLeftW, ballRightW])
    (by norm_num [paramsW, ballLeftW, ballRightW])

/-- C4: `resolve_collisions` never modifies any ball's angle or pivot (nor
its mass or stored angular acceleration): only angular velocities can
change. And a two-ball chain whose horizontal gap exceeds
`2 × radius + tolerance`, or whose pair is not closing
(`v_right − v_left ≥ 0`), is returned entirely unchanged. -/
theorem resolve_collisions_frame (T : Trig α) (p : SimulationParams α)
    (balls : List (Ball α)) (bl br : Ball α)
    (h : 2 * p.ball_radius + tolerance <
          (br.get_position T p).1 - (bl.get_position T p).1 ∨
        0 ≤ p.rod_length * br.angular_velocity -
          p.rod_length * bl.angular_velocity) :
    ((resolve_collisions T p balls).map
        (fun b => (b.angle, b.pivot, b.mass, b.angular_acceleration)) =
      balls.map
        (fun b => (b.angle, b.pivot, b.mass, b.angular_acceleration))) ∧
      resolve_collisions T p [bl, br] = [bl, br] := by
  constructor
  · exact resolveLoop_map_frame T p max_iter balls
  · have hsw : resolveSweep T p [bl, br] = ([bl, br], false) := by
      rw [resolveSweep_pair]
      rcases h with h | h
      · rw [if_neg (not_lt.mpr (le_of_lt h))]
      · by_cases h1 : (br.get_position T p).1 - (bl.get_position T p).1 <
            2 * p.ball_radius + tolerance
        · rw [if_pos h1, if_neg (not_lt.mpr h)]
        · rw [if_neg h1]
    show resolveLoop T p max_iter [bl, br] = [bl, br]
    rw [show max_iter = 9 + 1 from rfl]
    simp only [resolveLoop, hsw]

/-- Witness for C4: a resting ball and a closing ball 320 > 41 apart are
left unchanged by `resolve_collisions`. -/
theorem resolve_collisions_frame_witness :
    resolve_collisions ratTrig paramsW [ballLeftW, ballFarW] =
      [ballLeftW, ballFarW] :=
  (resolve_collisions_frame ratTrig paramsW [] ballLeftW ballFarW
    (Or.inl (by
      norm_num [Ball.get_position, ratTrig, paramsW, ballLeftW, ballFarW,
        tolerance]))).2

/-- C5: `resolve_collisions` runs at most `max_iter = 10` sweeps; a sweep
that found no collision ends the call at once with the chain unchanged (so
with no qualifying pair the call performs one sweep, zero swaps, and
returns the chain as is), and a sweep that found a collision is followed by
a further sweep on the remaining iteration budget. -/
theorem resolve_collisions_sweep_bound (T : Trig α) (p : SimulationParams α)
    (balls : List (Ball α)) :
    resolve_collisions T p balls = (resolveCount T p max_iter balls).1 ∧
      (resolveCount T p max_iter balls).2 ≤ max_iter ∧
      ((resolveSweep T p balls).2 = false →
        resolve_collisions T p balls = balls ∧
          (resolveCount T p max_iter balls).2 = 1) ∧
      (∀ (k : ℕ) (l : List (Ball α)), (resolveSweep T p l).2 = false →
        resolveLoop T p (k + 1) l = l) ∧
      (∀ (k : ℕ) (l : List (Ball α)), (resolveSweep T p l).2 = true →
        resolveLoop T p (k + 1) l = resolveLoop T p k (resolveSweep T p l).1) := by
  have hstop : ∀ (k : ℕ) (l : List (Ball α)), (resolveSweep T p l).2 = false →
      resolveLoop T p (k + 1) l = l := by
    intro k l hf
    have hfix := resolveSweep_of_flag_false T p l hf
    rcases hs : resolveSweep T p l with ⟨cs, f⟩
    rw [hs] at hf hfix
    cases f
    · simp only [resolveLoop, hs]
      exact hfix
    · simp at hf
  refine ⟨(resolveCount_fst T p max_iter balls).symm,
    resolveCount_le T p max_iter balls, ?_, hstop, ?_⟩
  · intro hf
    constructor
    · exact hstop 9 balls hf
    · rcases hs : resolveSweep T p balls with ⟨cs, f⟩
      rw [hs] at hf
      cases f
      · rw [show max_iter = 9 + 1 from rfl]
        simp only [resolveCount, hs]
      · simp at hf
  · intro k l hf
    rcases hs : resolveSweep T p l with ⟨cs, f⟩
    rw [hs] at hf
    cases f
    · simp at hf
    · simp only [resolveLoop, hs]

/-- Witness for C5: the far-apart two-ball chain produces a false collision
flag, so the call exits on the first sweep with the chain unchanged and a
sweep count of 1; the touching closing pair produces a true flag, so the
ten-sweep loop continues as a nine-sweep loop on the swept chain. -/
theorem resolve_collisions_sweep_bound_witness :
    (resolve_collisions ratTrig paramsW [ballLeftW, ballFarW] =
        [ballLeftW, ballFarW] ∧
      (resolveCount ratTrig paramsW max_iter [ballLeftW, ballFarW]).2 = 1) ∧
      resolveLoop ratTrig paramsW (9 + 1) [ballLeftW, ballRightW] =
        resolveLoop ratTrig paramsW 9
          (resolveSweep ratTrig paramsW [ballLeftW, ballRightW]).1 := by
  have hfalse : (resolveSweep ratTrig paramsW [ballLeftW, ballFarW]).2 =
      false := by
    rw [resolveSweep_pair]
    rw [if_neg (by
      norm_num [Ball.get_position, ratTrig, paramsW, ballLeftW, ballFarW,
        tolerance])]
  have htrue : (resolveSweep ratTrig paramsW [ballLeftW, ballRightW]).2 =
      true := by
    rw [resolveSweep_pair]
    rw [if_pos (by
      norm_num [Ball.get_position, ratTrig, paramsW, ballLeftW, ballRightW,
        tolerance])]
    rw [if_pos (by norm_num [paramsW, ballLeftW, ballRightW])]
  exact ⟨(resolve_collisions_sweep_bound ratTrig paramsW
      [ballLeftW, ballFarW]).2.2.1 hfalse,
    (resolve_collisions_sweep_bound ratTrig paramsW []).2.2.2.2 9
      [ballLeftW, ballRightW] htrue⟩

/-- C6: `resolve_collisions` only permutes the chain's angular velocities:
the multiset of angular velocities is preserved, and in particular their
sum (momentum along the chain for equal masses and a shared rod length) is
exactly conserved. -/
theorem resolve_collisions_velocity_perm (T : Trig α)
    (p : SimulationParams α) (balls : List (Ball α)) :
    (((resolve_collisions T p balls).map
        (fun b => b.angular_velocity) : List α) :
      Multiset α) = (balls.map (fun b => b.angular_velocity) : List α) ∧
      ((resolve_collisions T p balls).map
          (fun b => b.angular_velocity)).Perm
        (balls.map (fun b => b.angular_velocity)) ∧
      ((resolve_collisions T p balls).map
          (fun b => b.angular_velocity)).sum =
        (balls.map (fun b => b.angular_velocity)).sum := by
  have h := resolveLoop_perm T p max_iter balls
  exact ⟨Multiset.coe_eq_coe.mpr h, h, h.sum_eq⟩

/-- C2: one integration step computes the acceleration
`-(gravity / rod_length) · sin(angle)`, then the semi-implicit Euler
velocity `(ω + a·dt) · damping`, advances the angle with that already
updated velocity, and mutates nothing else (mass and pivot unchanged). -/
theorem update_step_spec (T : Trig α) (p : SimulationParams α) (b : Ball α)
    (dt : α) (hdt : 0 < dt) :
    (b.update T p dt).angular_acceleration =
        -(p.gravity / p.rod_length) * T.sin b.angle ∧
      (b.update T p dt).angular_velocity =
        (b.angular_velocity +
          -(p.gravity / p.rod_length) * T.sin b.angle * dt) * p.damping ∧
      (b.update T p dt).angle =
        b.angle + (b.update T p dt).angular_velocity * dt ∧
      (b.update T p dt).mass = b.mass ∧
      (b.update T p dt).pivot = b.pivot := by
  refine ⟨?_, ?_, rfl, rfl, rfl⟩
  · show -p.gravity * T.sin b.angle / p.rod_length =
      -(p.gravity / p.rod_length) * T.sin b.angle
    ring
  · show (b.angular_velocity +
        -p.gravity * T.sin b.angle / p.rod_length * dt) * p.damping =
      (b.angular_velocity +
        -(p.gravity / p.rod_length) * T.sin b.angle * dt) * p.damping
    ring

/-- Witness for C2: at the default parameters, angle 0 and velocity 1, a
step of dt = 1/60 yields velocity (1 + 0) · 1 = 1 and angle 0 + 1 · 1/60. -/
theorem update_step_spec_witness :
    (0 : ℚ) < 1 / 60 ∧
      (ballSpinW.update ratTrig paramsW (1 / 60)).angular_velocity =
        (ballSpinW.angular_velocity +
          -(paramsW.gravity / paramsW.rod_length) *
            ratTrig.sin ballSpinW.angle * (1 / 60)) * paramsW.damping ∧
      (ballSpinW.update ratTrig paramsW (1 / 60)).angle =
        ballSpinW.angle +
          (ballSpinW.update ratTrig paramsW (1 / 60)).angular_velocity *
            (1 / 60) :=
  ⟨by norm_num,
   (update_step_spec ratTrig paramsW ballSpinW (1 / 60) (by norm_num)).2.1,
   (update_step_spec ratTrig paramsW ballSpinW (1 / 60) (by norm_num)).2.2.1⟩

/-- C3: for a config with at least one ball and positive radius, the built
chain has exactly `num_balls` balls; ball `i` has angle `initial_angle`
when `i` is the last index and 0 otherwise, angular velocity 0 and the
configured mass; consecutive pivot x-coordinates differ by exactly
`2 × radius` and are strictly increasing. -/
theorem initialize_simulation_spec (p : SimulationParams α)
    (hn : 1 ≤ p.num_balls) (hr : 0 < p.ball_radius) :
    (initialize_simulation p).length = p.num_balls ∧
      (∀ (i : ℕ) (hi : i < (initialize_simulation p).length),
        (initialize_simulation p)[i].angle =
            (if i = p.num_balls - 1 then p.initial_angle else 0) ∧
          (initialize_simulation p)[i].angular_velocity = 0 ∧
          (initialize_simulation p)[i].mass = p.ball_mass) ∧
      (∀ (i : ℕ) (hi : i + 1 < (initialize_simulation p).length),
        (initialize_simulation p)[i + 1].pivot.1 -
            (initialize_simulation p)[i].pivot.1 = 2 * p.ball_radius ∧
          (initialize_simulation p)[i].pivot.1 <
            (initialize_simulation p)[i + 1].pivot.1) := by
  refine ⟨by simp [initialize_simulation], ?_, ?_⟩
  · intro i hi
    refine ⟨?_, ?_, ?_⟩ <;>
      simp [initialize_simulation]
  · intro i hi
    have hx : ∀ (j : ℕ) (hj : j < (initialize_simulation p).length),
        (initialize_simulation p)[j].pivot.1 =
          ((WIDTH / 2 : ℕ) : α) -
            (((p.num_balls : α) - 1) / 2) * (2 * p.ball_radius) +
            (j : α) * (2 * p.ball_radius) := by
      intro j hj
      simp [initialize_simulation]
    rw [hx (i + 1) hi, hx i (by omega)]
    constructor
    · push_cast
      ring
    · have h2r : (0 : α) < 2 * p.ball_radius := by linarith
      have : ((i : α) + 1) * (2 * p.ball_radius) >
          (i : α) * (2 * p.ball_radius) := by
        have hi0 : (0 : α) ≤ (i : α) := Nat.cast_nonneg i
        nlinarith
      push_cast
      linarith

/-- Witness for C3: the default config builds 5 balls; ball 4 is the raised
one. -/
theorem initialize_simulation_spec_witness :
    1 ≤ paramsW.num_balls ∧ (0 : ℚ) < paramsW.ball_radius ∧
      (initialize_simulation paramsW).length = paramsW.num_balls :=
  ⟨by norm_num [paramsW], by norm_num [paramsW],
   (initialize_simulation_spec paramsW (by norm_num [paramsW])
      (by norm_num [paramsW])).1⟩

/-- C8 counterexample: with damping factor 1/2 ∈ (0, 1], a ball with
angular velocity 1 does change under an integration step with dt = 0: the
velocity is multiplied by the damping factor, so the claimed universal
no-op fails. -/
theorem update_dt_zero_damped_changes :
    ((0 : ℚ) < paramsDampW.damping ∧ paramsDampW.damping ≤ 1) ∧
      (ballSpinW.update ratTrig paramsDampW 0).angular_velocity ≠
        ballSpinW.angular_velocity := by
  refine ⟨⟨by norm_num [paramsDampW], by norm_num [paramsDampW]⟩, ?_⟩
  norm_num [Ball.update, paramsDampW, ballSpinW, ratTrig]

/-- C8 (amended): with damping factor exactly 1 — the value the source pins
(`self.damping = 1.0`) — an integration step with dt = 0 is a no-op on the
observable state: angle and angular velocity are unchanged (exact-field
values, so no non-finite value can arise). -/
theorem update_dt_zero_noop_damping_one (T : Trig α)
    (p : SimulationParams α) (b : Ball α) (hd : p.damping = 1) :
    (b.update T p 0).angle = b.angle ∧
      (b.update T p 0).angular_velocity = b.angular_velocity := by
  constructor
  · show b.angle + (b.angular_velocity +
        -p.gravity * T.sin b.angle / p.rod_length * 0) * p.damping * 0 =
      b.angle
    ring
  · show (b.angular_velocity +
        -p.gravity * T.sin b.angle / p.rod_length * 0) * p.damping =
      b.angular_velocity
    rw [hd]
    ring

/-- Witness for C8 (amended): the default parameters have damping 1, and a
dt = 0 step leaves the spinning witness ball's angle and velocity alone. -/
theorem update_dt_zero_noop_damping_one_witness :
    paramsW.damping = 1 ∧
      (ballSpinW.update ratTrig paramsW 0).angle = ballSpinW.angle ∧
      (ballSpinW.update ratTrig paramsW 0).angular_velocity =
        ballSpinW.angular_velocity :=
  ⟨rfl, update_dt_zero_noop_damping_one ratTrig paramsW ballSpinW rfl⟩

/-- C10: with a configured ball count of 0, `initialize_simulation` raises
no error and silently returns the empty chain. -/
theorem initialize_simulation_zero_balls (p : SimulationParams α)
    (h : p.num_balls = 0) : initialize_simulation p = [] := by
  simp [initialize_simulation, h]

/-- Witness for C10: the default parameters with the ball count set to 0
build the empty chain. -/
theorem initialize_simulation_zero_balls_witness :
    initialize_simulation { paramsW with num_balls := 0 } =
      ([] : List (Ball ℚ)) :=
  initialize_simulation_zero_balls { paramsW with num_balls := 0 } rfl

/-! ### Mass independence of the dynamics -/

/-- The integration step reads only gravity, rod length and damping from
the parameters, and only angle, angular velocity and pivot from the ball:
balls agreeing on those agree after the step, whatever the masses. -/
theorem update_agree (T : Trig α) (p q : SimulationParams α)
    (hg : p.gravity = q.gravity) (hl : p.rod_length = q.rod_length)
    (hd : p.damping = q.damping) (b b2 : Ball α) (dt : α)
    (hb : AgreeDyn b b2) : AgreeDyn (b.update T p dt) (b2.update T q dt) := by
  obtain ⟨ha, hv, hp⟩ := hb
  refine ⟨?_, ?_, ?_⟩ <;>
    simp [Ball.update, ha, hv, hp, hg, hl, hd]

/-- Positions agree for balls agreeing on angle and pivot, for parameters
sharing the rod length. -/
theorem get_position_agree (T : Trig α) (p q : SimulationParams α)
    (hl : p.rod_length = q.rod_length) (b b2 : Ball α) (hb : AgreeDyn b b2) :
    b.get_position T p = b2.get_position T q := by
  obtain ⟨ha, hv, hp⟩ := hb
  simp [Ball.get_position, ha, hp, hl]

/-- A collision sweep reads only ball radius and rod length from the
parameters, and only angle, angular velocity and pivot from the balls:
chains agreeing on those produce agreeing chains and equal flags. -/
theorem resolveSweep_agree (T : Trig α) (p q : SimulationParams α)
    (hr : p.ball_radius = q.ball_radius) (hl : p.rod_length = q.rod_length) :
    ∀ (l l2 : List (Ball α)), List.Forall₂ AgreeDyn l l2 →
      List.Forall₂ AgreeDyn (resolveSweep T p l).1 (resolveSweep T q l2).1 ∧
        (resolveSweep T p l).2 = (resolveSweep T q l2).2 := by
  intro l
  induction l with
  | nil =>
    intro l2 h
    cases h
    exact ⟨List.Forall₂.nil, rfl⟩
  | cons a l ih =>
    intro l2 h
    rcases h with - | ⟨hab, htail⟩
    rename_i a2 l2
    cases htail with
    | nil => exact ⟨List.Forall₂.cons hab List.Forall₂.nil, rfl⟩
    | cons hb2 hrest =>
      rename_i b b2 rest rest2
      have hih := ih (b2 :: rest2) (List.Forall₂.cons hb2 hrest)
      rcases hsl : resolveSweep T p (b :: rest) with ⟨cs, f⟩
      rcases hsr : resolveSweep T q (b2 :: rest2) with ⟨cs2, f2⟩
      rw [hsl, hsr] at hih
      obtain ⟨hcs, hff⟩ := hih
      simp only at hcs hff
      subst hff
      cases hcs with
      | nil =>
        simp only [resolveSweep, hsl, hsr]
        exact ⟨List.Forall₂.cons hab List.Forall₂.nil, by simp⟩
      | cons hcc hrest2 =>
        rename_i c c2 cr cr2
        have hpos := get_position_agree T p q hl c c2 hcc
        have hposa := get_position_agree T p q hl a a2 hab
        have hdx : (c.get_position T p).1 - (a.get_position T p).1 =
            (c2.get_position T q).1 - (a2.get_position T q).1 := by
          rw [hpos, hposa]
        have hvv : p.rod_length * c.angular_velocity -
            p.rod_length * a.angular_velocity =
            q.rod_length * c2.angular_velocity -
            q.rod_length * a2.angular_velocity := by
          rw [hl, hcc.2.1, hab.2.1]
        have hthr : 2 * p.ball_radius + (tolerance : α) =
            2 * q.ball_radius + tolerance := by rw [hr]
        simp only [resolveSweep, hsl, hsr]
        rw [hdx, hthr]
        by_cases h1 : (c2.get_position T q).1 - (a2.get_position T q).1 <
            2 * q.ball_radius + tolerance
        · rw [if_pos h1, if_pos h1, hvv]
          by_cases h2 : q.rod_length * c2.angular_velocity -
              q.rod_length * a2.angular_velocity < 0
          · rw [if_pos h2, if_pos h2]
            refine ⟨List.Forall₂.cons ⟨hab.1, hcc.2.1, hab.2.2⟩
              (List.Forall₂.cons ⟨hcc.1, hab.2.1, hcc.2.2⟩ hrest2), rfl⟩
          · rw [if_neg h2, if_neg h2]
            exact ⟨List.Forall₂.cons hab (List.Forall₂.cons hcc hrest2), rfl⟩
        · rw [if_neg h1, if_neg h1]
          exact ⟨List.Forall₂.cons hab (List.Forall₂.cons hcc hrest2), rfl⟩

/-- The sweep loop preserves chain agreement for parameters sharing radius
and rod length. -/
theorem resolveLoop_agree (T : Trig α) (p q : SimulationParams α)
    (hr : p.ball_radius = q.ball_radius) (hl : p.rod_length = q.rod_length) :
    ∀ (k : ℕ) (l l2 : List (Ball α)), List.Forall₂ AgreeDyn l l2 →
      List.Forall₂ AgreeDyn (resolveLoop T p k l) (resolveLoop T q k l2) := by
  intro k
  induction k with
  | zero => intro l l2 h; exact h
  | succ k ih =>
    intro l l2 h
    have hsw := resolveSweep_agree T p q hr hl l l2 h
    rcases hsl : resolveSweep T p l with ⟨cs, f⟩
    rcases hsr : resolveSweep T q l2 with ⟨cs2, f2⟩
    rw [hsl, hsr] at hsw
    obtain ⟨hcs, hff⟩ := hsw
    simp only at hcs hff
    subst hff
    cases f
    · simp only [resolveLoop, hsl, hsr]
      exact hcs
    · simp only [resolveLoop, hsl, hsr]
      exact ih cs cs2 hcs

/-- Integrating every ball preserves chain agreement. -/
theorem update_map_agree (T : Trig α) (p q : SimulationParams α)
    (hg : p.gravity = q.gravity) (hl : p.rod_length = q.rod_length)
    (hd : p.damping = q.damping) (dt : α) :
    ∀ (l l2 : List (Ball α)), List.Forall₂ AgreeDyn l l2 →
      List.Forall₂ AgreeDyn (l.map fun b => b.update T p dt)
        (l2.map fun b => b.update T q dt) := by
  intro l l2 h
  induction h with
  | nil => exact List.Forall₂.nil
  | cons hb htail ih =>
    exact List.Forall₂.cons (update_agree T p q hg hl hd _ _ dt hb) ih

/-- Agreeing chains have equal angle lists and equal velocity lists. -/
theorem agree_maps_eq (l l2 : List (Ball α))
    (h : List.Forall₂ AgreeDyn l l2) :
    l.map (fun b => b.angle) = l2.map (fun b => b.angle) ∧
      l.map (fun b => b.angular_velocity) =
        l2.map (fun b => b.angular_velocity) := by
  induction h with
  | nil => exact ⟨rfl, rfl⟩
  | cons hb htail ih =>
    exact ⟨by simp [hb.1, ih.1], by simp [hb.2.1, ih.2]⟩

/-- C7: the evolution of angles and angular velocities is independent of
the masses. Two chains agreeing in every ball's angle, angular velocity
and pivot — masses arbitrary — driven by the same sequence of integrate
and resolve operations with the same non-mass parameters (the second run's
configured ball mass may differ arbitrarily) end with identical angle
lists and identical angular-velocity lists. -/
theorem mass_independence (T : Trig α) (p : SimulationParams α) (m : α)
    (ops : List (CradleOp α)) (balls balls2 : List (Ball α))
    (hb : List.Forall₂ AgreeDyn balls balls2) :
    (runOps T p ops balls).map (fun b => b.angle) =
        (runOps T { p with ball_mass := m } ops balls2).map
          (fun b => b.angle) ∧
      (runOps T p ops balls).map (fun b => b.angular_velocity) =
        (runOps T { p with ball_mass := m } ops balls2).map
          (fun b => b.angular_velocity) := by
  have key : ∀ (ops : List (CradleOp α)) (l l2 : List (Ball α)),
      List.Forall₂ AgreeDyn l l2 →
      List.Forall₂ AgreeDyn (runOps T p ops l)
        (runOps T { p with ball_mass := m } ops l2) := by
    intro ops
    induction ops with
    | nil => intro l l2 h; exact h
    | cons op ops ih =>
      intro l l2 h
      cases op with
      | integrate dt =>
        exact ih _ _ (update_map_agree T p { p with ball_mass := m }
          rfl rfl rfl dt l l2 h)
      | resolve =>
        exact ih _ _ (resolveLoop_agree T p { p with ball_mass := m }
          rfl rfl max_iter l l2 h)
  exact agree_maps_eq _ _ (key ops balls balls2 hb)

/-- Witness for C7: a light chain and a heavy chain (masses 1/1 versus
3/7) with the same angles, velocities and pivots evolve identically under
one integrate-then-resolve frame. -/
theorem mass_independence_witness :
    (runOps ratTrig paramsW
        [CradleOp.integrate (1 / 60), CradleOp.resolve]
        [ballLeftW, ballRightW]).map (fun b => b.angle) =
      (runOps ratTrig { paramsW with ball_mass := 9 }
          [CradleOp.integrate (1 / 60), CradleOp.resolve]
          [ballLeftHeavyW, ballRightHeavyW]).map (fun b => b.angle) ∧
      (runOps ratTrig paramsW
          [CradleOp.integrate (1 / 60), CradleOp.resolve]
          [ballLeftW, ballRightW]).map (fun b => b.angular_velocity) =
        (runOps ratTrig { paramsW with ball_mass := 9 }
            [CradleOp.integrate (1 / 60), CradleOp.resolve]
            [ballLeftHeavyW, ballRightHeavyW]).map
          (fun b => b.angular_velocity) :=
  mass_independence ratTrig paramsW 9
    [CradleOp.integrate (1 / 60), CradleOp.resolve]
    [ballLeftW, ballRightW] [ballLeftHeavyW, ballRightHeavyW]
    (List.Forall₂.cons ⟨rfl, rfl, rfl⟩
      (List.Forall₂.cons ⟨rfl, rfl, rfl⟩ List.Forall₂.nil))

end NewtonCradle
